import Mathlib

/-!
Shallow embedding of `github_pulls/github_pulls.py` (deansx/github-pulls).

The module downloads a repository's pull requests from the GitHub REST
API, classifies each one as defect-associated by the labels of its
linked issue, collects the commit SHA-1s of the defect-associated
pulls, and writes text/CSV/JSON artifacts.

Modelling conventions:
  * HTTP is a pure oracle `fetch : String → Response β`: the response the
    server would give for a URL.  `Response` carries the fields of the
    response that the source consults: the status code, the
    `x-ratelimit-remaining` and `x-ratelimit-reset` headers (absent
    headers are `none`; `headers[k]` on an absent key is a Python
    `KeyError`), the pagination `link` header already split into its
    `(relation, url)` pairs (the micro-parser of lines 196-199 works on
    the raw header string; the claims under study are about which
    relations are present, so the header is modelled at that parsed
    level, with Python's `dict(...)` later-duplicate-wins semantics in
    `linkGet`), and the JSON body.
  * Python exceptions are `Except GhError`.  Python's unbounded `while`
    / recursion is given explicit fuel; `GhError.outOfFuel` is an
    artifact of the embedding and is ruled out by the `0 < fuel`
    hypotheses of the theorems.
  * The source file's top-level imports (lines 42-51) and definitions
    bind exactly the names in `moduleGlobals`.  The rate-limit path of
    `get_page` (lines 159-168) and the body of `wait_it_out` (lines
    125-141) reference the names `datetime`, `sleep` and `gh_shared`,
    which are NOT among them, so at runtime Python raises `NameError`
    there.  `resolveName` models that lookup; it is inserted exactly at
    the source references to names that are missing (names that are
    imported, such as `sys`, `requests` and `csv`, resolve successfully
    and are not modelled).  Machine-checked consequence: the
    wait-and-retry path can never run.
  * Writes to stdout are not tracked except for the progress markers of
    `analyze_pulls` (lines 315-324), which claim C10 is about.
-/

namespace GithubPulls

/-- Python exceptions raised by the embedded code, plus the fuel
artifact of the embedding. -/
inductive GhError where
  | keyError (key : String)
  | nameError (nm : String)
  | valueError
  | unexpectedStatus (code : Nat)
  | outOfFuel
deriving DecidableEq

/-- An HTTP response, restricted to the fields the source consults.
`rlRemaining` / `rlReset` are the `x-ratelimit-remaining` /
`x-ratelimit-reset` headers, `link` is the pagination header as its
`(relation, url)` pairs, `body` is `response.json()`. -/
structure Response (β : Type) where
  status : Nat
  rlRemaining : Option String
  rlReset : Option String
  link : Option (List (String × String))
  body : β
deriving DecidableEq

/-- One entry of an issue's `labels` JSON array (line 107 reads
`l["name"]`). -/
structure Label where
  name : String
deriving DecidableEq

/-- The issue JSON consulted by `is_defect`; `labels` is `none` when the
field is absent (line 104 uses `.get("labels", [])`). -/
structure Issue where
  labels : Option (List Label)
deriving DecidableEq

/-- One entry of a pull's commits list (line 245 reads `c["sha"]`). -/
structure CommitRec where
  sha : String
deriving DecidableEq

/-- The fields of a pull-request record that the analysis consults. -/
structure PullReq where
  number : Nat
  issue_url : String
  commits_url : String
deriving DecidableEq

/-- Source line 53: `VERBOSE = True`. -/
def VERBOSE : Bool := true

/-- Source line 63: the set of labels designating a defect. -/
def DEFECTS : List String := ["bug", "defect", "kind/bug"]

/-- The names bound at the top level of `github_pulls.py`: the imports of
lines 42-51 and the module-level assignments, classes and functions.
Note that `datetime`, `sleep` and `gh_shared` are absent. -/
def moduleGlobals : List String :=
  ["sys", "os", "requests", "argparse", "configparser", "re", "json", "csv",
   "Enum", "unique", "VERBOSE", "REPO_BASE", "PARAMS", "ERR_LABEL",
   "NOTE_LABEL", "ERR_INDENT", "NOTE_INDENT", "EXITING_STR", "DEFECTS",
   "AuthType", "is_verbose", "get_params", "is_defect", "wait_it_out",
   "get_page", "download_pulls", "get_pull_requests", "get_commits_by_url",
   "get_commits_by_pull_num", "get_commits_by_pull", "analyze_pulls",
   "load_config_data", "get_auth"]

/-- Python global-name resolution: referencing a name that is not bound
in the module raises `NameError`. -/
def resolveName (nm : String) : Except GhError Unit :=
  if moduleGlobals.contains nm then .ok () else .error (.nameError nm)

/-- Decimal-digit accumulator for `pyInt`; `none` when a non-digit is
met or no digit was read at all. -/
def pyDigits : List Char → Option Nat → Option Nat
  | [], acc => acc
  | c :: cs, acc =>
    if 48 ≤ c.toNat ∧ c.toNat ≤ 57 then
      pyDigits cs (some ((acc.getD 0) * 10 + (c.toNat - 48)))
    else
      none

/-- Partial model of Python `int(str)`: an optional sign followed by
decimal digits (whitespace stripping not modelled); failure raises
`ValueError`. -/
def pyInt (s : String) : Option Int :=
  match s.toList with
  | '-' :: ds => (pyDigits ds none).map (fun n => -(n : Int))
  | '+' :: ds => (pyDigits ds none).map (fun n => (n : Int))
  | ds => (pyDigits ds none).map (fun n => (n : Int))

/-- `wait_it_out`'s while loop (source lines 128-137) plus the final
notice (139-141), with fuel for the Python `while`.  Each iteration
writes a remaining-time notice whose first format argument is
`gh_shared.NOTE_LABEL` (line 135) and then calls `sleep(...)` (line
136); both `gh_shared` and `sleep` are unbound names, checked by
`resolveName` in source order.  The returned list records the sleep
durations performed. -/
def waitLoop (msg : String) : Nat → Int → List Int → Except GhError (List Int)
  | 0, _, sleeps => .ok sleeps
  | fuel+1, total_wait, sleeps =>
    if 0 ≤ total_wait then do
      -- lines 129-134 compute the minutes figure and the format string;
      -- pure, and dead before the write's gh_shared argument resolves
      resolveName "gh_shared"
      let d : Int := if total_wait > 240 then 240 else total_wait
      resolveName "sleep"
      waitLoop msg fuel (total_wait - 240) (sleeps ++ [d])
    else do
      -- line 139: final notice, also formats gh_shared.NOTE_LABEL
      resolveName "gh_shared"
      .ok sleeps

/-- Source lines 114-141: pads the wait by 15 seconds and loops in
240-second decrements.  The fuel bounds the (terminating) while loop
from above. -/
def wait_it_out (msg : String) (total_wait : Int) : Except GhError (List Int) :=
  let padded := total_wait + 15
  waitLoop msg (padded.toNat / 240 + 2) padded []

/-- Lookup in the `pages` dict built on lines 196-199: Python `dict` on
a pair list keeps the LAST binding of a duplicated key. -/
def linkGet (ps : List (String × String)) (k : String) : Option String :=
  (ps.reverse.find? (fun pr => pr.1 == k)).map (·.2)

/-- Lines 195-205: the next-page URL.  `none` when the `link` header is
absent; otherwise `pages["next"]`, but only when both `last` and `next`
relations are present. -/
def nextUrl (link : Option (List (String × String))) : Option String :=
  match link with
  | none => none
  | some ps =>
    if (linkGet ps "last").isSome && (linkGet ps "next").isSome then
      linkGet ps "next"
    else
      none

/-- Source lines 144-172, `get_page`.  Reads
`headers["x-ratelimit-remaining"]` unconditionally (KeyError when the
header is absent).  On `"0"` it writes notices, reads and parses the
reset header, and then line 162 references the unbound name `datetime`;
the wait / recursive retry that follows is therefore dead code, kept
here verbatim behind the failing `resolveName`.  Otherwise: status 200
returns the response, anything else raises `Exception(status_code)`.
`now` models `datetime.datetime.utcnow()` as a Unix timestamp; the fuel
bounds the retry recursion. -/
def get_page (fetch : String → Response β) (now : Int) :
    Nat → String → Except GhError (Response β)
  | 0, _ => .error .outOfFuel
  | fuel+1, url =>
    let response := fetch url
    match response.rlRemaining with
    | none => .error (.keyError "x-ratelimit-remaining")
    | some rem =>
      if rem = "0" then
        match response.rlReset with
        | none => .error (.keyError "x-ratelimit-reset")
        | some rs =>
          match pyInt rs with
          | none => .error .valueError
          | some reset => do
            resolveName "datetime"
            -- line 163: wait_time = (reset_at - utcnow()).seconds, the
            -- seconds component of the timedelta
            let wait_time : Int := (reset - now) % 86400
            let _ ← wait_it_out "Rate Limit Hit" wait_time
            get_page fetch now fuel url
      else if response.status = 200 then
        .ok response
      else
        .error (.unexpectedStatus response.status)

/-- Source lines 175-206, `download_pulls`: the pagination while-loop,
written as fuel recursion.  Also returns the list of URLs requested, in
order, so that theorems can count the requests issued. -/
def download_pulls (fetch : String → Response (List α)) (now : Int) (pageFuel : Nat) :
    Nat → String → Except GhError (List α × List String)
  | 0, _ => .error .outOfFuel
  | fuel+1, url => do
    let response ← get_page fetch now pageFuel url
    let pull_list := response.body
    match nextUrl response.link with
    | some u2 => do
      let rest ← download_pulls fetch now pageFuel fuel u2
      .ok (pull_list ++ rest.1, url :: rest.2)
    | none => .ok (pull_list, [url])

/-- Source lines 91-112, `is_defect`: fetch the pull's linked issue,
collect its label names, and test the intersection with `DEFECTS` for
emptiness. -/
def is_defect (fetch : String → Response Issue) (now : Int) (fuel : Nat)
    (pull_req : PullReq) : Except GhError Bool := do
  let issue ← get_page fetch now fuel pull_req.issue_url
  let labels := issue.body.labels.getD []
  let label_names := labels.map (·.name)
  let isect := DEFECTS.filter (fun d => label_names.contains d)
  if isect.isEmpty then .ok false else .ok true

/-- Source lines 230-248, `get_commits_by_url`: fetch the commits page
and collect each record's `sha` field in order. -/
def get_commits_by_url (fetch : String → Response (List CommitRec)) (now : Int)
    (fuel : Nat) (commits_url : String) : Except GhError (List String) := do
  let r ← get_page fetch now fuel commits_url
  .ok (r.body.map (·.sha))

/-- Source lines 276-288, `get_commits_by_pull`. -/
def get_commits_by_pull (fetch : String → Response (List CommitRec)) (now : Int)
    (fuel : Nat) (pull : PullReq) : Except GhError (List String) :=
  get_commits_by_url fetch now fuel pull.commits_url

/-- Python `pull_commits[p["number"]] = commits` (line 332): dict
assignment overwrites an existing key in place, else appends a new
binding; insertion order is preserved. -/
def dictInsert (d : List (Nat × List String)) (k : Nat) (v : List String) :
    List (Nat × List String) :=
  if d.any (fun pr => pr.1 == k) then
    d.map (fun pr => if pr.1 == k then (k, v) else pr)
  else
    d ++ [(k, v)]

/-- Source lines 318-324: the per-pull progress-marker step of the
classification loop.  Given the running counter, returns the string
written to stdout for this pull and the updated counter: a `"*"` when
`progress // 10 > 0`, then increment, then on reaching 71 a line break
and a reset to 0. -/
def progressMark (progress : Nat) : String × Nat :=
  let s := if progress / 10 > 0 then "*" else ""
  let p2 := progress + 1
  if p2 = 71 then (s ++ "\n", 0) else (s, p2)

/-- The state accumulated by the classification loop of
`analyze_pulls`: the flat SHA list, the per-pull dict, the progress
markers written to stdout, and the final counter value. -/
structure LoopResult where
  shas : List String
  pull_commits : List (Nat × List String)
  marks : String
  progress : Nat
deriving DecidableEq

/-- Source lines 317-332: the classification loop of `analyze_pulls`.
For each pull, in order: emit the progress marker (verbose mode),
classify via `is_defect`, and when positive extend the flat SHA list
with the pull's commits and bind them to the pull's number in the dict. -/
def analyzeLoop (issueFetch : String → Response Issue)
    (commitsFetch : String → Response (List CommitRec)) (now : Int) (fuel : Nat) :
    List PullReq → Nat → String → List String → List (Nat × List String) →
    Except GhError LoopResult
  | [], progress, marks, shas, pc => .ok ⟨shas, pc, marks, progress⟩
  | p :: rest, progress, marks, shas, pc => do
    let step := if VERBOSE then progressMark progress else ("", progress)
    let marks2 := marks ++ step.1
    let d ← is_defect issueFetch now fuel p
    if d then do
      let commits ← get_commits_by_pull commitsFetch now fuel p
      analyzeLoop issueFetch commitsFetch now fuel rest step.2 marks2
        (shas ++ commits) (dictInsert pc p.number commits)
    else
      analyzeLoop issueFetch commitsFetch now fuel rest step.2 marks2 shas pc

/-- Python `csv` minimal quoting: a field is quoted iff it contains the
delimiter, the quote character, or a line-terminator character; inner
quotes are doubled. -/
def csvField (s : String) : String :=
  if s.toList.any (fun c => c = ',' || c = '\x22' || c = '\n' || c = '\r') then
    "\x22" ++ String.mk (s.toList.flatMap
      (fun c => if c = '\x22' then ['\x22', '\x22'] else [c])) ++ "\x22"
  else
    s

/-- One `writer.writerow(fields)` call: the minimally-quoted fields
joined by commas plus the line terminator (`os.linesep`, `"\n"` on the
POSIX platforms modelled here). -/
def csvRow (fields : List String) : String :=
  String.intercalate "," (fields.map csvField) ++ "\n"

/-- Source lines 344-352: the CSV artifact.  The header row, then the
nested loop `for p in pull_commits: for s in pull_commits[p]:` writing
one row `[p, s, owner, repo]` per (pull, commit) pair, each appended to
the file contents. -/
def csvWrite (pull_commits : List (Nat × List String)) (owner repo : String) :
    String :=
  pull_commits.foldl
    (fun acc pr =>
      pr.2.foldl (fun acc2 s => acc2 ++ csvRow [Nat.repr pr.1, s, owner, repo]) acc)
    (csvRow ["Pull", "Commit-SHA", "Owner", "Repo"])

/-- Source lines 292-368, `analyze_pulls`, from the point where the pull
list has been fetched (line 307 calls `get_pull_requests`, i.e.
`download_pulls`, modelled separately): run the classification loop and
assemble the text and CSV artifacts.  Returns (flat SHA list, per-pull
dict, progress-marker output, txt artifact, csv artifact); the source
returns the flat SHA list, the artifacts go to files. -/
def analyze_pulls (pulls : List PullReq) (issueFetch : String → Response Issue)
    (commitsFetch : String → Response (List CommitRec)) (now : Int) (fuel : Nat)
    (owner repo : String) :
    Except GhError (List String × List (Nat × List String) × String × String × String) := do
  let r ← analyzeLoop issueFetch commitsFetch now fuel pulls 0 "" [] []
  let marks := if VERBOSE then r.marks ++ "\n" else r.marks
  let txt := String.join (r.shas.map (fun s => s ++ "\n"))
  let csvText := csvWrite r.pull_commits owner repo
  .ok (r.shas, r.pull_commits, marks, txt, csvText)

/-- Number of asterisk progress markers in a stdout transcript. -/
def countStars (s : String) : Nat :=
  s.toList.count '*'

/-! Concrete servers and inputs used to evaluate the theorems on closed
instances. -/

/-- First page of a two-page pull listing: records `"a", "b"`, link
header with both `next` and `last`. -/
def page1 : Response (List String) :=
  { status := 200, rlRemaining := some "42", rlReset := none,
    link := some [("next", "u2"), ("last", "u2")], body := ["a", "b"] }

/-- Final page of the two-page listing: record `"c"`, no link header. -/
def page2 : Response (List String) :=
  { status := 200, rlRemaining := some "42", rlReset := none,
    link := none, body := ["c"] }

/-- The two-page server: `"u1" ↦ page1`, anything else `↦ page2`. -/
def chainFetch : String → Response (List String) :=
  fun u => if u = "u1" then page1 else page2

/-- A server that always answers with the rate limit exhausted
(`remaining = "0"`, `reset = 100`). -/
def rlFetch : String → Response Unit :=
  fun _ =>
    { status := 200, rlRemaining := some "0", rlReset := some "100",
      link := none, body := () }

/-- A server answering `remaining = "0"` with the reset header absent. -/
def rlNoResetFetch : String → Response Unit :=
  fun _ =>
    { status := 200, rlRemaining := some "0", rlReset := none,
      link := none, body := () }

/-- A server whose responses lack the `x-ratelimit-remaining` header
entirely, with status 200. -/
def noRemFetch : String → Response Unit :=
  fun _ =>
    { status := 200, rlRemaining := none, rlReset := none,
      link := none, body := () }

/-- A healthy 200 server (`remaining = "7"`). -/
def okFetch : String → Response Unit :=
  fun _ =>
    { status := 200, rlRemaining := some "7", rlReset := none,
      link := none, body := () }

/-- A healthy-header server that answers 404. -/
def notFoundFetch : String → Response Unit :=
  fun _ =>
    { status := 404, rlRemaining := some "7", rlReset := none,
      link := none, body := () }

/-- An issue server: `"i1"` is an issue labelled `bug` and `doc`, `"i2"`
an issue labelled `enhancement`, anything else an unlabelled issue. -/
def issueFetchW : String → Response Issue :=
  fun u =>
    { status := 200, rlRemaining := some "9", rlReset := none, link := none,
      body :=
        if u = "i1" then { labels := some [{ name := "bug" }, { name := "doc" }] }
        else if u = "i2" then { labels := some [{ name := "enhancement" }] }
        else { labels := none } }

/-- A commits server: `"c1"` holds `sha1, sha2`, anything else is empty. -/
def commitsFetchW : String → Response (List CommitRec) :=
  fun u =>
    { status := 200, rlRemaining := some "9", rlReset := none, link := none,
      body := if u = "c1" then [{ sha := "sha1" }, { sha := "sha2" }] else [] }

/-- Two concrete pulls: #1 linked to the `bug` issue, #2 to the
`enhancement` issue. -/
def pullsW : List PullReq :=
  [{ number := 1, issue_url := "i1", commits_url := "c1" },
   { number := 2, issue_url := "i2", commits_url := "c2" }]

/-- Twenty concrete pulls all linked to unlabelled issues, to drive the
progress-marker loop. -/
def pulls20 : List PullReq :=
  (List.range 20).map
    (fun i => { number := i + 1, issue_url := "i0", commits_url := "c0" })

instance {ε α : Type} [DecidableEq ε] [DecidableEq α] : DecidableEq (Except ε α) :=
  fun x y =>
    match x, y with
    | .ok u, .ok v =>
      if h : u = v then isTrue (by rw [h])
      else isFalse (by intro hc; cases hc; exact h rfl)
    | .error u, .error v =>
      if h : u = v then isTrue (by rw [h])
      else isFalse (by intro hc; cases hc; exact h rfl)
    | .ok _, .error _ => isFalse (by intro hc; cases hc)
    | .error _, .ok _ => isFalse (by intro hc; cases hc)

/-- A well-formed page chain rooted at the server `fetch`: each pair is
(request URL, the response the server gives for it).  Every response is
healthy (status 200, rate limit not exhausted); every non-final page's
link header carries both a `next` relation, pointing at the next
entry's URL, and a `last` relation; the final page's link header omits
`next` or is absent — the scenario quantified over by claim C1. -/
def pageChain (fetch : String → Response (List α)) :
    List (String × Response (List α)) → Prop
  | [] => True
  | (u, r) :: rest =>
    fetch u = r ∧ r.status = 200 ∧ (∃ v, r.rlRemaining = some v ∧ v ≠ "0") ∧
    (match rest with
     | [] => r.link = none ∨ ∃ ps, r.link = some ps ∧ linkGet ps "next" = none
     | (u2, _) :: _ => ∃ ps, r.link = some ps ∧ linkGet ps "next" = some u2 ∧
         (linkGet ps "last").isSome = true) ∧
    pageChain fetch rest

/-! Helper lemmas. -/

/-- Binding a raised exception short-circuits. -/
theorem ghBindError {γ δ : Type} (e : GhError) (f : γ → Except GhError δ) :
    (Except.error e : Except GhError γ) >>= f = Except.error e := rfl

/-- Binding a successful result applies the continuation. -/
theorem ghBindOk {γ δ : Type} (a : γ) (f : γ → Except GhError δ) :
    (Except.ok a : Except GhError γ) >>= f = f a := rfl

/-- `get_page` on a healthy response (rate limit not exhausted, status
200) returns that response unchanged. -/
theorem getPageOk {β : Type} (fetch : String → Response β) (now : Int) (fuel : Nat)
    (url : String) (hf : 0 < fuel) (v : String)
    (hrem : (fetch url).rlRemaining = some v) (hv : v ≠ "0")
    (hst : (fetch url).status = 200) :
    get_page fetch now fuel url = .ok (fetch url) := by
  obtain ⟨f, rfl⟩ : ∃ f, fuel = f + 1 := ⟨fuel - 1, by omega⟩
  simp [get_page, hrem, hv, hst]

/-- C5: for every response whose rate-limit-remaining header is present
and not `"0"`: on status 200, `get_page` returns the response to the
caller; on any other status it fails with an error carrying that status
code, with no local recovery or retry. -/
theorem C5_status_dispatch {β : Type} (fetch : String → Response β) (now : Int)
    (fuel : Nat) (url : String) (v : String) (hf : 0 < fuel)
    (hrem : (fetch url).rlRemaining = some v) (hv : v ≠ "0") :
    ((fetch url).status = 200 → get_page fetch now fuel url = .ok (fetch url)) ∧
    ((fetch url).status ≠ 200 →
      get_page fetch now fuel url = .error (.unexpectedStatus (fetch url).status)) := by
  constructor
  · intro hst
    exact getPageOk fetch now fuel url hf v hrem hv hst
  · intro hst
    obtain ⟨f, rfl⟩ : ∃ f, fuel = f + 1 := ⟨fuel - 1, by omega⟩
    simp [get_page, hrem, hv, hst]

/-- Witness for C5 at a healthy 200 server and at a 404 server. -/
theorem C5_witness :
    get_page okFetch 0 1 "u" = .ok (okFetch "u") ∧
    get_page notFoundFetch 0 1 "u" = .error (.unexpectedStatus 404) := by
  constructor
  · exact (C5_status_dispatch okFetch 0 1 "u" "7" (by decide) (by decide)
      (by decide)).1 (by decide)
  · exact (C5_status_dispatch notFoundFetch 0 1 "u" "7" (by decide) (by decide)
      (by decide)).2 (by decide)

/-- C9: for every response lacking the `x-ratelimit-remaining` header,
`get_page` raises a KeyError, before the status code is consulted —
the conclusion holds with no assumption on the status, in particular
when it is 200 (the witness). -/
theorem C9_unconditional_header_lookup {β : Type} (fetch : String → Response β)
    (now : Int) (fuel : Nat) (url : String) (hf : 0 < fuel)
    (hrem : (fetch url).rlRemaining = none) :
    get_page fetch now fuel url = .error (.keyError "x-ratelimit-remaining") := by
  obtain ⟨f, rfl⟩ : ∃ f, fuel = f + 1 := ⟨fuel - 1, by omega⟩
  simp [get_page, hrem]

/-- Witness for C9: a 200 response without the header still fails. -/
theorem C9_witness :
    get_page noRemFetch 0 1 "u" = .error (.keyError "x-ratelimit-remaining") :=
  C9_unconditional_header_lookup noRemFetch 0 1 "u" (by decide) (by decide)

/-- C2, code bug: at the claim's own input — remaining `"0"`, reset
timestamp 100, current time 95 (T-5) — `get_page` does not wait 20
seconds and re-issue the request: line 162 references the unbound name
`datetime` and the call dies with a NameError before any waiting. -/
theorem C2_rate_limit_code_bug :
    get_page rlFetch 95 1 "u" = .error (.nameError "datetime") := by decide

/-- C6, code bug: for every message and requested duration,
`wait_it_out` raises a NameError on the unbound name `gh_shared` at its
first stdout notice (line 135, or line 139 when the padded wait is
negative), before any sleep; it never sleeps W + 15 seconds. -/
theorem C6_wait_code_bug :
    (∀ (msg : String) (w : Int),
      wait_it_out msg w = .error (.nameError "gh_shared")) ∧
    wait_it_out "Rate Limit Hit" 5 = .error (.nameError "gh_shared") := by
  have hgh : resolveName "gh_shared" = .error (.nameError "gh_shared") := rfl
  constructor
  · intro msg w
    show waitLoop msg ((w + 15).toNat / 240 + 2) (w + 15) [] = _
    have hsplit : (w + 15).toNat / 240 + 2 = ((w + 15).toNat / 240 + 1) + 1 := rfl
    rw [hsplit]
    by_cases h0 : 0 ≤ w + 15 <;> simp [waitLoop, h0, hgh, ghBindError]
  · decide

/-- C8 counterexample: a response with remaining `"0"` but no
`x-ratelimit-reset` header makes `get_page` raise a KeyError (line
161), not a NameError, refuting the claim's universal "for every
response whose rate-limit-remaining header reads exactly 0". -/
theorem C8_counterexample :
    get_page rlNoResetFetch 0 1 "u" = .error (.keyError "x-ratelimit-reset") ∧
    (Except.error (GhError.keyError "x-ratelimit-reset") :
        Except GhError (Response Unit)) ≠
      .error (.nameError "datetime") := by
  constructor
  · decide
  · decide

/-- C8 as amended: for every response whose rate-limit-remaining header
reads exactly `"0"` and which carries an `x-ratelimit-reset` header
parseable as an integer, `get_page` raises an unhandled NameError on
the unbound name `datetime` (line 162) before any waiting occurs, so
the wait-and-retry path never completes a retry. -/
theorem C8_amended_nameerror {β : Type} (fetch : String → Response β) (now : Int)
    (fuel : Nat) (url : String) (hf : 0 < fuel)
    (h0 : (fetch url).rlRemaining = some "0")
    (hrs : ∃ rs k, (fetch url).rlReset = some rs ∧ pyInt rs = some k) :
    get_page fetch now fuel url = .error (.nameError "datetime") := by
  obtain ⟨f, rfl⟩ : ∃ f, fuel = f + 1 := ⟨fuel - 1, by omega⟩
  obtain ⟨rs, k, hr, hk⟩ := hrs
  have hdt : resolveName "datetime" = .error (.nameError "datetime") := rfl
  simp [get_page, h0, hr, hk, hdt, ghBindError]

/-- Witness for the amended C8. -/
theorem C8_witness :
    get_page rlFetch 0 1 "u" = .error (.nameError "datetime") :=
  C8_amended_nameerror rlFetch 0 1 "u" (by decide) (by decide)
    ⟨"100", 100, by decide, by decide⟩

/-- C1: over every well-formed page chain — non-final pages whose link
header carries both `next` and `last`, a final page whose link header
omits `next` or is absent — `download_pulls` returns exactly the
concatenation of the pages' record lists in order, issuing exactly one
request per page and none after the final page; and the `next` URL is
followed only when a `last` relation is also present. -/
theorem C1_pagination :
    (∀ (α : Type) (fetch : String → Response (List α)) (now : Int)
       (pageFuel fuel : Nat) (u : String) (r : Response (List α))
       (rest : List (String × Response (List α))),
       0 < pageFuel → pageChain fetch ((u, r) :: rest) → rest.length < fuel →
       download_pulls fetch now pageFuel fuel u =
         .ok ((((u, r) :: rest).map (fun pr => pr.2.body)).flatten,
              ((u, r) :: rest).map (fun pr => pr.1))) ∧
    (∀ ps : List (String × String),
       linkGet ps "last" = none → nextUrl (some ps) = none) := by
  constructor
  · intro α fetch now pageFuel fuel u r rest
    induction rest generalizing u r fuel with
    | nil =>
      intro hpf hchain hlen
      obtain ⟨f, rfl⟩ : ∃ f, fuel = f + 1 := ⟨fuel - 1, by omega⟩
      obtain ⟨hfetch, hst, ⟨v, hrem, hv⟩, hlink, -⟩ := hchain
      have hget : get_page fetch now pageFuel u = .ok r := by
        rw [← hfetch]
        exact getPageOk fetch now pageFuel u hpf v (by rw [hfetch]; exact hrem) hv
          (by rw [hfetch]; exact hst)
      rcases hlink with h | ⟨ps, hps, hn⟩
      · simp [download_pulls, hget, ghBindOk, nextUrl, h]
      · simp [download_pulls, hget, ghBindOk, nextUrl, hps, hn]
    | cons hd tl ih =>
      obtain ⟨u2, r2⟩ := hd
      intro hpf hchain hlen
      obtain ⟨f, rfl⟩ : ∃ f, fuel = f + 1 := ⟨fuel - 1, by omega⟩
      obtain ⟨hfetch, hst, ⟨v, hrem, hv⟩, ⟨ps, hps, hn, hl⟩, hrest⟩ := hchain
      have hget : get_page fetch now pageFuel u = .ok r := by
        rw [← hfetch]
        exact getPageOk fetch now pageFuel u hpf v (by rw [hfetch]; exact hrem) hv
          (by rw [hfetch]; exact hst)
      have hih := ih f u2 r2 hpf hrest (by simp at hlen; omega)
      simp [download_pulls, hget, ghBindOk, nextUrl, hps, hn, hl, hih]
  · intro ps hlast
    simp [nextUrl, hlast]

/-- Witness for C1: a concrete two-page chain. -/
theorem C1_witness :
    download_pulls chainFetch 0 1 2 "u1" = .ok (["a", "b", "c"], ["u1", "u2"]) := by
  have hchain : pageChain chainFetch [("u1", page1), ("u2", page2)] := by
    refine ⟨by decide, by decide, ⟨"42", by decide, by decide⟩,
      ⟨[("next", "u2"), ("last", "u2")], by decide, by decide, by decide⟩,
      by decide, by decide, ⟨"42", by decide, by decide⟩, Or.inl (by decide), trivial⟩
  have h := C1_pagination.1 String chainFetch 0 1 2 "u1" page1 [("u2", page2)]
    (by decide) hchain (by decide)
  simpa using h

/-- The intersection test at the heart of `is_defect`: the filtered
defect list is empty iff no label of the issue is in `DEFECTS`. -/
theorem defectFilter (L : List Label) :
    (DEFECTS.filter (fun d => (L.map Label.name).contains d)).isEmpty = true ↔
      ¬ ∃ l ∈ L, l.name ∈ DEFECTS := by
  simp [List.isEmpty_iff, List.filter_eq_nil_iff, List.mem_map]
  aesop

/-- C3: given a healthy issue response, `is_defect` returns true iff the
issue's label-name set meets {bug, defect, kind/bug}; an empty or
absent labels field yields false. -/
theorem C3_defect_labels (fetch : String → Response Issue) (now : Int) (fuel : Nat)
    (pull : PullReq) (v : String) (hf : 0 < fuel)
    (hrem : (fetch pull.issue_url).rlRemaining = some v) (hv : v ≠ "0")
    (hst : (fetch pull.issue_url).status = 200) :
    (is_defect fetch now fuel pull = .ok true ↔
      ∃ l ∈ (fetch pull.issue_url).body.labels.getD [], l.name ∈ DEFECTS) ∧
    ((fetch pull.issue_url).body.labels.getD [] = [] →
      is_defect fetch now fuel pull = .ok false) := by
  have hget := getPageOk fetch now fuel pull.issue_url hf v hrem hv hst
  have hbody : is_defect fetch now fuel pull =
      (if (DEFECTS.filter (fun d =>
            (((fetch pull.issue_url).body.labels.getD []).map Label.name).contains d)).isEmpty
       then .ok false else .ok true) := by
    simp [is_defect, hget, ghBindOk]
  constructor
  · by_cases hP : ∃ l ∈ (fetch pull.issue_url).body.labels.getD [], l.name ∈ DEFECTS
    · have hc : (DEFECTS.filter (fun d =>
          (((fetch pull.issue_url).body.labels.getD []).map Label.name).contains d)).isEmpty = false := by
        rcases Bool.eq_false_or_eq_true ((DEFECTS.filter (fun d =>
          (((fetch pull.issue_url).body.labels.getD []).map Label.name).contains d)).isEmpty) with h | h
        · exact absurd hP ((defectFilter _).mp h)
        · exact h
      rw [hbody, hc]
      simp [hP]
    · have hc := (defectFilter ((fetch pull.issue_url).body.labels.getD [])).mpr hP
      rw [hbody, hc]
      simp [hP]
  · intro hempty
    have hc : (DEFECTS.filter (fun d =>
        (((fetch pull.issue_url).body.labels.getD []).map Label.name).contains d)).isEmpty = true := by
      rw [hempty]
      decide
    rw [hbody, hc]
    simp

/-- Witness for C3: a `bug`-labelled issue classifies as defect, an
unlabelled one does not. -/
theorem C3_witness :
    (is_defect issueFetchW 0 1
      { number := 1, issue_url := "i1", commits_url := "c1" } = .ok true) ∧
    (is_defect issueFetchW 0 1
      { number := 3, issue_url := "i9", commits_url := "c9" } = .ok false) := by
  constructor
  · exact (C3_defect_labels issueFetchW 0 1
      { number := 1, issue_url := "i1", commits_url := "c1" } "9" (by decide)
      (by decide) (by decide) (by decide)).1.mpr
      ⟨{ name := "bug" }, by decide, by decide⟩
  · exact (C3_defect_labels issueFetchW 0 1
      { number := 3, issue_url := "i9", commits_url := "c9" } "9" (by decide)
      (by decide) (by decide) (by decide)).2 (by decide)

/-- Python dict assignment on a fresh key appends the binding. -/
theorem dictInsertNotMem (d : List (Nat × List String)) (k : Nat) (v : List String)
    (h : k ∉ d.map (fun pr => pr.1)) : dictInsert d k v = d ++ [(k, v)] := by
  have hany : d.any (fun pr => pr.1 == k) = false := by
    rw [List.any_eq_false]
    intro pr hpr
    simp only [beq_iff_eq]
    intro he
    exact h (List.mem_map.mpr ⟨pr, hpr, he⟩)
  simp [dictInsert, hany]

/-- The classification loop, for pulls with pairwise-distinct numbers
and deterministic classification/commit oracles, extends the flat SHA
accumulator by the concatenated commit lists of the defect pulls and
the dict by one binding per defect pull, in iteration order. -/
theorem analyzeLoopSpec (issueFetch : String → Response Issue)
    (commitsFetch : String → Response (List CommitRec)) (now : Int) (fuel : Nat)
    (dfn : PullReq → Bool) (cs : PullReq → List String) :
    ∀ (pulls : List PullReq) (progress : Nat) (marks : String)
      (shas : List String) (pc : List (Nat × List String)),
      (∀ p ∈ pulls, is_defect issueFetch now fuel p = .ok (dfn p) ∧
        get_commits_by_pull commitsFetch now fuel p = .ok (cs p)) →
      (pulls.map (fun p => p.number)).Nodup →
      (∀ p ∈ pulls, dfn p = true → p.number ∉ pc.map (fun pr => pr.1)) →
      ∃ res : LoopResult,
        analyzeLoop issueFetch commitsFetch now fuel pulls progress marks shas pc =
          .ok res ∧
        res.shas = shas ++ (pulls.filter dfn).flatMap cs ∧
        res.pull_commits = pc ++ (pulls.filter dfn).map (fun p => (p.number, cs p)) := by
  intro pulls
  induction pulls with
  | nil =>
    intro progress marks shas pc _ _ _
    exact ⟨⟨shas, pc, marks, progress⟩, rfl, by simp, by simp⟩
  | cons p rest ih =>
    intro progress marks shas pc hok hnodup hkeys
    obtain ⟨hdef, hcom⟩ := hok p (by simp)
    have hnodup2 : (rest.map (fun p => p.number)).Nodup := by
      simp only [List.map_cons, List.nodup_cons] at hnodup
      exact hnodup.2
    have hpnum : p.number ∉ rest.map (fun p => p.number) := by
      simp only [List.map_cons, List.nodup_cons] at hnodup
      exact hnodup.1
    have hok2 : ∀ q ∈ rest, is_defect issueFetch now fuel q = .ok (dfn q) ∧
        get_commits_by_pull commitsFetch now fuel q = .ok (cs q) := by
      intro q hq
      exact hok q (by simp [hq])
    by_cases hd : dfn p
    · have hkey : p.number ∉ pc.map (fun pr => pr.1) := hkeys p (by simp) hd
      have hkeys2 : ∀ q ∈ rest, dfn q = true →
          q.number ∉ (pc ++ [(p.number, cs p)]).map (fun pr => pr.1) := by
        intro q hq hdq
        simp only [List.map_append, List.mem_append]
        rintro (hin | hin)
        · exact hkeys q (by simp [hq]) hdq hin
        · simp at hin
          exact hpnum (hin ▸ List.mem_map.mpr ⟨q, hq, rfl⟩)
      obtain ⟨res, hres, h1, h2⟩ := ih (progressMark progress).2
        (marks ++ (progressMark progress).1) (shas ++ cs p)
        (pc ++ [(p.number, cs p)]) hok2 hnodup2 hkeys2
      refine ⟨res, ?_, ?_, ?_⟩
      · simp only [analyzeLoop, VERBOSE, if_true, hdef, ghBindOk, hd, hcom,
          dictInsertNotMem pc p.number (cs p) hkey]
        exact hres
      · rw [h1]
        simp [hd, List.append_assoc]
      · rw [h2]
        simp [hd, List.append_assoc]
    · have hd2 : dfn p = false := by revert hd; cases dfn p <;> simp
      have hkeys2 : ∀ q ∈ rest, dfn q = true →
          q.number ∉ pc.map (fun pr => pr.1) := by
        intro q hq hdq
        exact hkeys q (by simp [hq]) hdq
      obtain ⟨res, hres, h1, h2⟩ := ih (progressMark progress).2
        (marks ++ (progressMark progress).1) shas pc hok2 hnodup2 hkeys2
      refine ⟨res, ?_, ?_, ?_⟩
      · simp only [analyzeLoop, VERBOSE, if_true, hdef, ghBindOk, hd2]
        simpa using hres
      · rw [h1]
        simp [hd2]
      · rw [h2]
        simp [hd2]

/-- C4: for pulls with distinct numbers, `analyze_pulls` returns as its
flat commit sequence exactly the concatenation, in pull iteration
order, of the commit lists of the pulls classified as
defect-associated, and as its per-pull mapping exactly those pulls in
order, each bound to its ordered commit list — so flat sequence and
mapping carry the same (pull, commit) associations. -/
theorem C4_analysis_invariant (pulls : List PullReq)
    (issueFetch : String → Response Issue)
    (commitsFetch : String → Response (List CommitRec)) (now : Int) (fuel : Nat)
    (owner repo : String) (dfn : PullReq → Bool) (cs : PullReq → List String)
    (hok : ∀ p ∈ pulls, is_defect issueFetch now fuel p = .ok (dfn p) ∧
      get_commits_by_pull commitsFetch now fuel p = .ok (cs p))
    (hnodup : (pulls.map (fun p => p.number)).Nodup) :
    (analyze_pulls pulls issueFetch commitsFetch now fuel owner repo).map
        (fun res => (res.1, res.2.1)) =
      .ok ((pulls.filter dfn).flatMap cs,
           (pulls.filter dfn).map (fun p => (p.number, cs p))) := by
  obtain ⟨res, hres, h1, h2⟩ := analyzeLoopSpec issueFetch commitsFetch now fuel dfn cs
    pulls 0 "" [] [] hok hnodup (by simp)
  simp [analyze_pulls, hres, ghBindOk, Except.map, h1, h2]

/-- Witness for C4: pull #1 (`bug`) contributes its two commits, pull #2
(`enhancement`) is excluded. -/
theorem C4_witness :
    (analyze_pulls pullsW issueFetchW commitsFetchW 0 1 "o" "r").map
        (fun res => (res.1, res.2.1)) =
      .ok (["sha1", "sha2"], [(1, ["sha1", "sha2"])]) := by
  have h := C4_analysis_invariant pullsW issueFetchW commitsFetchW 0 1 "o" "r"
    (fun p => decide (p.number = 1))
    (fun p => if p.number = 1 then ["sha1", "sha2"] else [])
    (by decide) (by decide)
  exact h

/-- `String.join` distributes over cons. -/
theorem strJoinCons (s : String) (l : List String) :
    String.join (s :: l) = s ++ String.join l := by
  rw [String.join_eq, String.join_eq]
  apply String.ext
  simp

/-- `String.join` distributes over append. -/
theorem strJoinAppend (l1 l2 : List String) :
    String.join (l1 ++ l2) = String.join l1 ++ String.join l2 := by
  rw [String.join_eq, String.join_eq, String.join_eq]
  apply String.ext
  simp

/-- Folding string appends equals appending the join of the pieces. -/
theorem foldlAppendJoin {γ : Type} (g : γ → String) (l : List γ) :
    ∀ acc : String,
      l.foldl (fun a x => a ++ g x) acc = acc ++ String.join (l.map g) := by
  induction l with
  | nil =>
    intro acc
    simp [String.join]
  | cons x xs ih =>
    intro acc
    simp only [List.foldl_cons, List.map_cons]
    rw [ih (acc ++ g x), strJoinCons, ← String.append_assoc]

/-- The nested row-writing loop of the CSV emitter appends one row per
(pull, commit) pair, in dict order then commit order. -/
theorem csvFold (owner repo : String) (pc : List (Nat × List String)) :
    ∀ init : String,
      pc.foldl (fun acc pr =>
        pr.2.foldl (fun acc2 s => acc2 ++ csvRow [Nat.repr pr.1, s, owner, repo]) acc)
        init =
      init ++ String.join (pc.flatMap
        (fun pr => pr.2.map (fun s => csvRow [Nat.repr pr.1, s, owner, repo]))) := by
  induction pc with
  | nil =>
    intro init
    simp [String.join]
  | cons pr rest ih =>
    intro init
    simp only [List.foldl_cons, List.flatMap_cons]
    rw [foldlAppendJoin, ih, strJoinAppend, String.append_assoc]

/-- C7: the CSV artifact is the header row `Pull,Commit-SHA,Owner,Repo`
followed by one minimally-quoted row per (pull, commit) pair, in
mapping order then commit order; for the mapping {1: [sha_a, sha_b]}
with owner `o` and repo `r` it is exactly the header followed by
`1,sha_a,o,r` and `1,sha_b,o,r`. -/
theorem C7_csv_artifact :
    (∀ (pc : List (Nat × List String)) (owner repo : String),
      csvWrite pc owner repo =
        csvRow ["Pull", "Commit-SHA", "Owner", "Repo"] ++
          String.join (pc.flatMap
            (fun pr => pr.2.map (fun s => csvRow [Nat.repr pr.1, s, owner, repo])))) ∧
    csvWrite [(1, ["sha_a", "sha_b"])] "o" "r" =
      "Pull,Commit-SHA,Owner,Repo\n1,sha_a,o,r\n1,sha_b,o,r\n" := by
  constructor
  · intro pc owner repo
    exact csvFold owner repo pc (csvRow ["Pull", "Commit-SHA", "Owner", "Repo"])
  · decide

/-- C10 as amended: in verbose mode the loop's marker step writes an
asterisk for a pull iff the running counter is at least 10 — so within
each 71-pull cycle the first 10 pulls produce no marker and each of the
remaining 61 produces one asterisk — and on the 71st pull of a cycle
(counter 70) it appends a line break and resets the counter to 0. -/
theorem C10_amended_markers :
    VERBOSE = true ∧
    ∀ c : Nat, progressMark c =
      ((if 10 ≤ c then "*" else "") ++ (if c = 70 then "\n" else ""),
       if c = 70 then 0 else c + 1) := by
  refine ⟨rfl, fun c => ?_⟩
  by_cases h2 : c = 70
  · subst h2
    decide
  · have h71 : ¬ (c + 1 = 71) := by omega
    by_cases h1 : 10 ≤ c
    · have hpos : 0 < c / 10 := Nat.div_pos h1 (by norm_num)
      simp [progressMark, h1, h2, h71, hpos, String.append_empty]
    · have hz : c / 10 = 0 := Nat.div_eq_of_lt (by omega)
      simp [progressMark, h1, h2, h71, hz]

/-- C10 counterexample: running the classification loop over 20 pulls
(none classified as defects) writes 10 asterisks — one per pull past
the first 10 — not the 2 = 20 / 10 markers the claim predicts. -/
theorem C10_counterexample :
    (analyzeLoop issueFetchW commitsFetchW 0 1 pulls20 0 "" [] []).map
        (fun res => countStars res.marks) = .ok 10 ∧
    (10 : Nat) ≠ 20 / 10 := by
  constructor
  · decide
  · decide

end GithubPulls
